import Mathlib

/-!
Verification of the configuration-synchronization logic of
`src/sso_aws_helper.py`.  Python strings are modelled as Lean `String`s and
each Python string operation used by the code is defined on the underlying
character list.  Shell-profile files are modelled as lists of lines
(`content.split('\n')`, the empty file being `[]`), the AWS CLI config file
as an ordered association list of sections.
-/

namespace SsoHelper

/-- Python `str.strip()` on the character list: remove leading and trailing
whitespace. -/
def stripChars (l : List Char) : List Char :=
  ((l.dropWhile Char.isWhitespace).reverse.dropWhile Char.isWhitespace).reverse

/-- Python `line.strip()`. -/
def pyStrip (s : String) : String :=
  String.mk (stripChars s.data)

/-- Python substring containment `needle in hay`, on character lists. -/
def subChars (n : List Char) : List Char → Bool
  | [] => n.isEmpty
  | c :: t => n.isPrefixOf (c :: t) || subChars n t

/-- Python `needle in hay` for strings. -/
def pyIn (needle hay : String) : Bool :=
  subChars needle.data hay.data

/-- Python `s.startswith(t)`. -/
def pyStartsWith (t s : String) : Bool :=
  t.data.isPrefixOf s.data

/-- Python `s.endswith(t)`. -/
def pyEndsWith (t s : String) : Bool :=
  t.data.isSuffixOf s.data

/-- Python `s.rstrip('/')`: remove all trailing slash characters. -/
def rstripSlash (s : String) : String :=
  String.mk ((s.data.reverse.dropWhile (fun c => c = '/')).reverse)

/-- Helper for the split functions: prepend a character to the first piece. -/
def consHead (x : Char) : List (List Char) → List (List Char)
  | [] => [[x]]
  | h :: t => (x :: h) :: t

/-- Python `s.split(c)` for a one-character separator: split on every
occurrence; the empty string yields `[""]`. -/
def pySplit (c : Char) : List Char → List (List Char)
  | [] => [[]]
  | x :: xs => if x = c then [] :: pySplit c xs else consHead x (pySplit c xs)

/-- Python `s.split(c, maxsplit)`: at most `n` splits, the remainder is kept
whole as the last piece. -/
def pySplitN (c : Char) : Nat → List Char → List (List Char)
  | _, [] => [[]]
  | 0, l => [l]
  | n + 1, x :: xs =>
    if x = c then [] :: pySplitN c n xs else consHead x (pySplitN c (n + 1) xs)

/-- Error outcomes of the profile-name extraction in
`AWSProfileManager._update_config_file` (src/sso_aws_helper.py:149-150).
The code's out-of-range list indexing raises Python `IndexError`.  The
constructor `malformedProfileNameError` never occurs in the code; it is
modelled from the spec's error taxonomy solely so the spec's claimed error
can be compared with the one the code produces. -/
inductive PyErr where
  | indexError
  | malformedProfileNameError
deriving DecidableEq, Repr

/-- Canonical profile name `f"sso-{account_id}-{role_name}"` built in
`AWSSSOManager.setup_profiles` (src/sso_aws_helper.py:276). -/
def profileNameFor (accountId roleName : String) : String :=
  "sso-" ++ accountId ++ "-" ++ roleName

/-- Profile-name parsing from `AWSProfileManager._update_config_file`
(src/sso_aws_helper.py:149-150): `profile_name.split('-')[1]` is the account
id and `profile_name.split('-', 2)[2]` the role name; an out-of-range index
is Python's `IndexError`. -/
def parseProfileName (s : String) : Except PyErr (String × String) :=
  match (pySplit '-' s.data)[1]? with
  | none => .error .indexError
  | some a =>
    match (pySplitN '-' 2 s.data)[2]? with
    | none => .error .indexError
    | some r => .ok (String.mk a, String.mk r)

/-- URL normalization from `_update_config_file` (src/sso_aws_helper.py:152-155):
if the configured SSO start URL does not already end with `/#`, strip
trailing `/` characters and append `/#`. -/
def normalizeStartUrl (s : String) : String :=
  if pyEndsWith "/#" s then s else rstripSlash s ++ "/#"

/-- Settings read from `sso_config.ini` (class `AWSConfig`) that
`_update_config_file` consumes. -/
structure Settings where
  sso_start_url : String
  sso_region : String
  default_region : String
  output_format : String
deriving DecidableEq

/-- The AWS CLI config file, as configparser holds it in memory: an ordered
association list from section name to an ordered list of key/value pairs. -/
def ConfigDoc := List (String × List (String × String))

/-- configparser's `config[name] = kvs`: if a section with that name exists
its keys are replaced wholesale in place, otherwise the section is appended
at the end. -/
def upsertSection (name : String) (kvs : List (String × String)) :
    ConfigDoc → ConfigDoc
  | [] => [(name, kvs)]
  | (n, old) :: rest =>
    if n = name then (n, kvs) :: rest else (n, old) :: upsertSection name kvs rest

/-- Lookup of a section by name (first occurrence). -/
def lookupSection (name : String) : ConfigDoc → Option (List (String × String))
  | [] => none
  | (n, kv) :: rest => if n = name then some kv else lookupSection name rest

/-- The key/value map written identically into the `default` section and the
named profile section (src/sso_aws_helper.py:158-175). -/
def profileKVs (cfg : Settings) (accountId roleName : String) :
    List (String × String) :=
  [("sso_start_url", normalizeStartUrl cfg.sso_start_url),
   ("sso_region", cfg.sso_region),
   ("sso_account_id", accountId),
   ("sso_role_name", roleName),
   ("region", cfg.default_region),
   ("output", cfg.output_format)]

/-- Body of `AWSProfileManager._update_config_file`
(src/sso_aws_helper.py:140-180): extract account id and role name from the
profile name (which can raise `IndexError`), normalize the start URL, then
assign the `default` section and the `profile {name}` section the same key
set. -/
def updateConfigFile (cfg : Settings) (profileName : String)
    (doc : ConfigDoc) : Except PyErr ConfigDoc :=
  match parseProfileName profileName with
  | .error e => .error e
  | .ok (accountId, roleName) =>
    let kvs := profileKVs cfg accountId roleName
    .ok (upsertSection ("profile " ++ profileName) kvs
          (upsertSection "default" kvs doc))

/-- Python's blank-line test `line.strip() == ""`. -/
def isBlank (l : String) : Bool :=
  pyStrip l == ""

/-- Canonical bash export line (src/sso_aws_helper.py:353). -/
def bashExport (p : String) : String :=
  "export AWS_DEFAULT_PROFILE=" ++ p

/-- Canonical bash helper alias (src/sso_aws_helper.py:354). -/
def bashAlias : String :=
  "alias clear_aws=\x27unset AWS_ACCESS_KEY_ID AWS_SECRET_ACCESS_KEY AWS_SESSION_TOKEN AWS_DEFAULT_PROFILE\x27"

/-- Match predicate for the bash export directive:
`line.strip().startswith("export AWS_DEFAULT_PROFILE=")`
(src/sso_aws_helper.py:374). -/
def bashExportTest (l : String) : Bool :=
  pyStartsWith "export AWS_DEFAULT_PROFILE=" (pyStrip l)

/-- The bash merge loop (src/sso_aws_helper.py:362-381): collapse runs of
blank lines to a single one, replace the first line matching the export
predicate by the canonical export line, drop later matches, keep every
other line.  State: accumulated output, `aws_profile_added`, current
blank-run length. -/
def bashGo (p : String) :
    List String → List String → Bool → Nat → List String × Bool
  | [], acc, added, _ => (acc, added)
  | l :: ls, acc, added, bc =>
    if isBlank l then
      if bc + 1 ≤ 1 then bashGo p ls (acc ++ [l]) added (bc + 1)
      else bashGo p ls acc added (bc + 1)
    else
      if bashExportTest l then
        if added then bashGo p ls acc true 0
        else bashGo p ls (acc ++ [bashExport p]) true 0
      else bashGo p ls (acc ++ [l]) added 0

/-- The bash merge pass over the whole file. -/
def bashPass (p : String) (lines : List String) : List String × Bool :=
  bashGo p lines [] false 0

/-- Python `new_lines and new_lines[-1].strip() != ""` — the test guarding
the blank separator before an appended directive. -/
def needsSep (acc : List String) : Bool :=
  match acc.getLast? with
  | none => false
  | some l => !(isBlank l)

/-- The blank separator line, when one is needed. -/
def sepIfNeeded (acc : List String) : List String :=
  if needsSep acc then [""] else []

/-- Lines 383-388 of src/sso_aws_helper.py: append the canonical export line
(behind one blank separator when needed) if no line of the pass matched. -/
def bashWithExport (p : String) (lines : List String) : List String :=
  match bashPass p lines with
  | (acc, added) =>
    if added then acc else acc ++ sepIfNeeded acc ++ [bashExport p]

/-- Python `'\n'.join(new_lines)`. -/
def joinLines (ls : List String) : String :=
  String.intercalate "\n" ls

/-- Content transformation of `AWSSSOManager._setup_bash_profile`
(src/sso_aws_helper.py:361-396): the pass, the conditional export append,
then the alias appended only when not already contained as a substring of
the joined content (lines 390-393 — note: with no blank separator). -/
def bashMerge (p : String) (lines : List String) : List String :=
  let acc := bashWithExport p lines
  if pyIn bashAlias (joinLines acc) then acc else acc ++ [bashAlias]

/-- Canonical PowerShell profile assignment (src/sso_aws_helper.py:413). -/
def psEnv (p : String) : String :=
  "$env:AWS_DEFAULT_PROFILE = \x27" ++ p ++ "\x27"

/-- Substring matched to detect the assignment (src/sso_aws_helper.py:439). -/
def psEnvNeedle : String :=
  "$env:AWS_DEFAULT_PROFILE"

/-- Substring matched to detect the helper function (src/sso_aws_helper.py:445). -/
def psFuncNeedle : String :=
  "function Clear-AWS"

/-- The Clear-AWS helper block, `clear_aws_function.split('\n')`
(src/sso_aws_helper.py:414-418). -/
def psBlock : List String :=
  ["function Clear-AWS \x7b",
   "    Remove-Item Env:AWS_ACCESS_KEY_ID,Env:AWS_SECRET_ACCESS_KEY,Env:AWS_SESSION_TOKEN -ErrorAction SilentlyContinue",
   "    $env:AWS_DEFAULT_PROFILE = \x27default\x27",
   "    Write-Host \"Cleared AWS environment variables and set default profile\"",
   "\x7d"]

/-- The PowerShell merge loop (src/sso_aws_helper.py:426-449): blank-run
collapsing, replace-first/drop-later for lines containing the assignment
substring, keep-and-flag for lines containing the function substring. -/
def psGo (p : String) :
    List String → List String → Bool → Bool → Nat → List String × Bool × Bool
  | [], acc, e, f, _ => (acc, e, f)
  | l :: ls, acc, e, f, bc =>
    if isBlank l then
      if bc + 1 ≤ 1 then psGo p ls (acc ++ [l]) e f (bc + 1)
      else psGo p ls acc e f (bc + 1)
    else
      if pyIn psEnvNeedle l then
        if e then psGo p ls acc true f 0
        else psGo p ls (acc ++ [psEnv p]) true f 0
      else
        if pyIn psFuncNeedle l then psGo p ls (acc ++ [l]) e true 0
        else psGo p ls (acc ++ [l]) e f 0

/-- The PowerShell merge pass over the whole file. -/
def psPass (p : String) (lines : List String) : List String × Bool × Bool :=
  psGo p lines [] false false 0

/-- Lines 451-456 of src/sso_aws_helper.py: after the pass, append the
canonical assignment (behind one blank separator when needed) if no line of
the pass matched the assignment substring. -/
def psWithEnv (p : String) (lines : List String) : List String :=
  match psPass p lines with
  | (acc, e, _) => if e then acc else acc ++ sepIfNeeded acc ++ [psEnv p]

/-- Content transformation of `AWSSSOManager._setup_powershell_profile`
(src/sso_aws_helper.py:425-465): the pass, the conditional assignment
append, then the Clear-AWS block appended (behind one blank separator when
needed) if no line of the pass matched the function substring
(lines 458-462). -/
def psMerge (p : String) (lines : List String) : List String :=
  let acc1 := psWithEnv p lines
  if (psPass p lines).2.2 then acc1 else acc1 ++ sepIfNeeded acc1 ++ psBlock

/-- Windows per-user environment (registry key `Environment`): a last-write-
wins key/value store, written by `_setup_cmd_profile` via
`winreg.SetValueEx` (src/sso_aws_helper.py:472-480). -/
def setRegValue (k v : String) :
    List (String × String) → List (String × String)
  | [] => [(k, v)]
  | (k0, v0) :: rest =>
    if k0 = k then (k0, v) :: rest else (k0, v0) :: setRegValue k v rest

/-- Lookup in the registry model. -/
def lookupReg (k : String) : List (String × String) → Option String
  | [] => none
  | (k0, v0) :: rest => if k0 = k then some v0 else lookupReg k rest

/-- The files and stores touched by `setup_global_profile`. -/
structure ShellEnv where
  bashrc : List String
  psProfile : List String
  registry : List (String × String)
deriving DecidableEq

/-- `AWSSSOManager.setup_global_profile` (src/sso_aws_helper.py:331-347):
returns immediately when no profile names were produced; otherwise runs the
three shell adapters with the constant profile name `"default"`
(line 337: `default_profile = "default"`). -/
def setupGlobalProfile (profileNames : List String) (env : ShellEnv) :
    ShellEnv :=
  if profileNames = [] then env
  else
    { bashrc := bashMerge "default" env.bashrc,
      psProfile := psMerge "default" env.psProfile,
      registry := setRegValue "AWS_DEFAULT_PROFILE" "default" env.registry }

/-- The `AWSSSOManager.setup_profiles` loop (src/sso_aws_helper.py:266-283):
for each (account id, role name) pair the canonical profile name is appended
to the result list and only then the profile update is attempted; an
exception raised by the update is caught and only logged.  The updater is a
parameter so that every failure behaviour of `update_profile` (including
file-system errors) is covered. -/
def setupProfiles (upd : String → ConfigDoc → Except PyErr ConfigDoc) :
    List (String × String) → ConfigDoc → List String × ConfigDoc
  | [], doc => ([], doc)
  | (accountId, roleName) :: rest, doc =>
    let name := profileNameFor accountId roleName
    let doc1 := match upd name doc with
      | .ok d => d
      | .error _ => doc
    let res := setupProfiles upd rest doc1
    (name :: res.1, res.2)

/-! Lemmas about the split functions. -/

theorem consHead_cons (x : Char) (h : List Char) (t : List (List Char)) :
    consHead x (h :: t) = (x :: h) :: t := rfl

theorem pySplit_ne_nil (c : Char) (l : List Char) : pySplit c l ≠ [] := by
  induction l with
  | nil => simp [pySplit]
  | cons x xs ih =>
      by_cases hx : x = c
      · simp [pySplit, hx]
      · simp only [pySplit, if_neg hx]
        cases hsp : pySplit c xs with
        | nil => exact absurd hsp ih
        | cons a t => simp [consHead]

theorem pySplitN_ne_nil (c : Char) (n : Nat) (l : List Char) :
    pySplitN c n l ≠ [] := by
  induction l generalizing n with
  | nil => cases n <;> simp [pySplitN]
  | cons x xs ih =>
      cases n with
      | zero => simp [pySplitN]
      | succ m =>
          by_cases hx : x = c
          · simp [pySplitN, hx]
          · simp only [pySplitN, if_neg hx]
            cases hsp : pySplitN c (m + 1) xs with
            | nil => exact absurd hsp (ih (m + 1))
            | cons a t => simp [consHead]

theorem pySplitN_zero (c : Char) (l : List Char) : pySplitN c 0 l = [l] := by
  cases l <;> rfl

theorem pySplit_append (c : Char) (xs ys : List Char) (h : c ∉ xs) :
    pySplit c (xs ++ c :: ys) = xs :: pySplit c ys := by
  induction xs with
  | nil => simp [pySplit]
  | cons a l ih =>
      have ha : a ≠ c := fun hac => h (hac ▸ List.mem_cons_self a l)
      have hl : c ∉ l := fun hc => h (List.mem_cons_of_mem a hc)
      have hstep : pySplit c ((a :: l) ++ c :: ys)
          = consHead a (pySplit c (l ++ c :: ys)) := by
        simp [pySplit, if_neg ha]
      rw [hstep, ih hl, consHead_cons]

theorem pySplitN_append (c : Char) (n : Nat) (xs ys : List Char) (h : c ∉ xs) :
    pySplitN c (n + 1) (xs ++ c :: ys) = xs :: pySplitN c n ys := by
  induction xs with
  | nil => simp [pySplitN]
  | cons a l ih =>
      have ha : a ≠ c := fun hac => h (hac ▸ List.mem_cons_self a l)
      have hl : c ∉ l := fun hc => h (List.mem_cons_of_mem a hc)
      have hstep : pySplitN c (n + 1) ((a :: l) ++ c :: ys)
          = consHead a (pySplitN c (n + 1) (l ++ c :: ys)) := by
        simp [pySplitN, if_neg ha]
      rw [hstep, ih hl, consHead_cons]

theorem length_consHead (x : Char) (ll : List (List Char)) (h : ll ≠ []) :
    (consHead x ll).length = ll.length := by
  cases ll with
  | nil => exact absurd rfl h
  | cons a t => simp [consHead]

theorem length_pySplit (c : Char) (l : List Char) :
    (pySplit c l).length = l.count c + 1 := by
  induction l with
  | nil => simp [pySplit]
  | cons x xs ih =>
      by_cases hx : x = c
      · subst hx
        simp [pySplit, List.count_cons, ih]
      · rw [pySplit, if_neg hx, length_consHead x _ (pySplit_ne_nil c xs), ih,
          List.count_cons]
        simp [hx]

theorem length_pySplitN (c : Char) (n : Nat) (l : List Char) :
    (pySplitN c n l).length = min n (l.count c) + 1 := by
  induction l generalizing n with
  | nil => cases n <;> simp [pySplitN]
  | cons x xs ih =>
      cases n with
      | zero => simp [pySplitN_zero]
      | succ m =>
          by_cases hx : x = c
          · subst hx
            rw [pySplitN, if_pos rfl]
            simp only [List.length_cons, ih m, List.count_cons_self]
            omega
          · rw [pySplitN, if_neg hx,
              length_consHead x _ (pySplitN_ne_nil c (m + 1) xs), ih (m + 1),
              List.count_cons]
            simp [hx]

/-- C2: for every role whose account id contains no `-`, parsing the
formatted profile name `sso-{accountId}-{roleName}` recovers exactly the
original account id and role name, even when the role name contains `-`. -/
theorem parse_format_roundtrip (a r : String) (h : '-' ∉ a.data) :
    parseProfileName (profileNameFor a r) = .ok (a, r) := by
  have hsso : ("sso-" : String).data = ['s', 's', 'o', '-'] := rfl
  have hdash : ("-" : String).data = ['-'] := rfl
  have hdata : (profileNameFor a r).data
      = ['s', 's', 'o'] ++ '-' :: (a.data ++ '-' :: r.data) := by
    simp [profileNameFor, String.data_append, hsso, hdash]
  have hsep : ('-' : Char) ∉ (['s', 's', 'o'] : List Char) := by decide
  have hsp : pySplit '-' (profileNameFor a r).data
      = ['s', 's', 'o'] :: a.data :: pySplit '-' r.data := by
    rw [hdata, pySplit_append '-' _ _ hsep, pySplit_append '-' _ _ h]
  have hspn : pySplitN '-' 2 (profileNameFor a r).data
      = [['s', 's', 'o'], a.data, r.data] := by
    rw [hdata, pySplitN_append '-' 1 _ _ hsep, pySplitN_append '-' 0 _ _ h,
      pySplitN_zero]
  simp [parseProfileName, hsp, hspn]

/-- Witness for C2 at a concrete role whose role name itself contains `-`. -/
theorem parse_format_roundtrip_witness :
    ('-' ∉ ("111111111111" : String).data) ∧
      parseProfileName (profileNameFor "111111111111" "Admin-Access")
        = .ok ("111111111111", "Admin-Access") :=
  ⟨by decide, parse_format_roundtrip "111111111111" "Admin-Access" (by decide)⟩

/-- C5: the SSO start URL normalization always yields a string ending in
`/#`, and it is idempotent: normalizing an already-normalized string returns
it unchanged. -/
theorem normalizeStartUrl_ends_and_idem (u : String) :
    pyEndsWith "/#" (normalizeStartUrl u) = true ∧
      normalizeStartUrl (normalizeStartUrl u) = normalizeStartUrl u := by
  have hends : pyEndsWith "/#" (normalizeStartUrl u) = true := by
    by_cases h : pyEndsWith "/#" u
    · simp [normalizeStartUrl, h]
    · simp only [normalizeStartUrl, h, Bool.false_eq_true, if_false]
      have : (rstripSlash u ++ "/#").data = (rstripSlash u).data ++ ['/', '#'] := by
        simp [String.data_append]
      simp only [pyEndsWith, this]
      rw [List.isSuffixOf_iff_suffix]
      exact ⟨(rstripSlash u).data, rfl⟩
  refine ⟨hends, ?_⟩
  conv_lhs => rw [normalizeStartUrl]
  simp [hends]

/-- C6 amended: on every profile name with fewer than two `-` separators the
parse fails, but with Python's `IndexError` (out-of-range list index), not
with `MalformedProfileNameError` — no such error class exists in the code. -/
theorem parse_few_separators_indexError (s : String)
    (h : s.data.count '-' < 2) :
    parseProfileName s = .error .indexError := by
  have hlen1 : (pySplit '-' s.data).length = s.data.count '-' + 1 :=
    length_pySplit '-' s.data
  have hcases : s.data.count '-' = 0 ∨ s.data.count '-' = 1 := by omega
  rcases hcases with h0 | h1
  · have hnone : (pySplit '-' s.data)[1]? = none := by
      apply List.getElem?_eq_none
      omega
    simp [parseProfileName, hnone]
  · have hlt : 1 < (pySplit '-' s.data).length := by omega
    have hsome : (pySplit '-' s.data)[1]? = some ((pySplit '-' s.data)[1]) :=
      List.getElem?_eq_getElem hlt
    have hlen2 : (pySplitN '-' 2 s.data).length = 2 := by
      rw [length_pySplitN, h1]
      decide
    have hnone2 : (pySplitN '-' 2 s.data)[2]? = none := by
      apply List.getElem?_eq_none
      omega
    simp [parseProfileName, hsome, hnone2]

/-- Witness for the amended C6 at the concrete input `"sso-x"` (one
separator). -/
theorem parse_few_separators_indexError_witness :
    (("sso-x" : String).data.count '-' < 2) ∧
      parseProfileName "sso-x" = .error .indexError :=
  ⟨by decide, parse_few_separators_indexError "sso-x" (by decide)⟩

/-- C6 counterexample: on the input `"abc"` (fewer than two separators) the
code's parse does not produce `MalformedProfileNameError` as the claim
states; it produces an `IndexError`. -/
theorem parse_few_separators_not_malformed :
    (("abc" : String).data.count '-' < 2) ∧
      parseProfileName "abc" ≠ .error .malformedProfileNameError := by
  refine ⟨by decide, ?_⟩
  have hp : parseProfileName "abc" = .error .indexError := by rfl
  rw [hp]
  intro hcontra
  exact absurd (Except.error.inj hcontra) (by decide)

/-! Lemmas about the config-document upsert. -/

theorem lookupSection_upsert_self (name : String) (kvs : List (String × String))
    (d : ConfigDoc) :
    lookupSection name (upsertSection name kvs d) = some kvs := by
  induction d with
  | nil => simp [upsertSection, lookupSection]
  | cons s rest ih =>
      obtain ⟨n, old⟩ := s
      by_cases hn : n = name
      · simp [upsertSection, lookupSection, hn]
      · simp [upsertSection, lookupSection, hn, ih]

theorem lookupSection_upsert_other (name m : String)
    (kvs : List (String × String)) (d : ConfigDoc) (h : name ≠ m) :
    lookupSection name (upsertSection m kvs d) = lookupSection name d := by
  induction d with
  | nil =>
      have hmn : ¬(m = name) := fun hc => h hc.symm
      simp [upsertSection, lookupSection, hmn]
  | cons s rest ih =>
      obtain ⟨n, old⟩ := s
      by_cases hn : n = m
      · subst hn
        have hnn : ¬(n = name) := fun hc => h hc.symm
        simp [upsertSection, lookupSection, hnn]
      · simp only [upsertSection, if_neg hn, lookupSection]
        by_cases hm : n = name
        · simp [hm]
        · simp [hm, ih]

theorem upsertSection_of_lookup (name : String)
    (kvs : List (String × String)) (d : ConfigDoc)
    (h : lookupSection name d = some kvs) :
    upsertSection name kvs d = d := by
  induction d with
  | nil => simp [lookupSection] at h
  | cons s rest ih =>
      obtain ⟨n, old⟩ := s
      by_cases hn : n = name
      · have hkv : old = kvs := by
          rw [lookupSection, if_pos hn] at h
          exact Option.some.inj h
        simp [upsertSection, hn, hkv]
      · rw [lookupSection, if_neg hn] at h
        simp [upsertSection, hn, ih h]

theorem map_fst_upsertSection (name : String) (kvs : List (String × String))
    (d : ConfigDoc) :
    (upsertSection name kvs d).map Prod.fst
      = if name ∈ d.map Prod.fst then d.map Prod.fst
        else d.map Prod.fst ++ [name] := by
  induction d with
  | nil => simp [upsertSection]
  | cons s rest ih =>
      obtain ⟨n, old⟩ := s
      by_cases hn : n = name
      · simp [upsertSection, hn]
      · have hne : ¬(name = n) := fun hc => hn hc.symm
        by_cases hmem : name ∈ rest.map Prod.fst
        · simp [upsertSection, hn, ih, hmem, hne]
        · simp [upsertSection, hn, ih, hmem, hne]

theorem nodup_upsertSection (name : String) (kvs : List (String × String))
    (d : ConfigDoc) (h : (d.map Prod.fst).Nodup) :
    ((upsertSection name kvs d).map Prod.fst).Nodup := by
  rw [map_fst_upsertSection]
  by_cases hn : name ∈ d.map Prod.fst
  · simpa [hn] using h
  · simp only [hn, if_false]
    simp [List.nodup_append, h, hn]

theorem filter_upsertSection (f : String × List (String × String) → Bool)
    (name : String) (kvs : List (String × String)) (d : ConfigDoc)
    (hf : ∀ v, f (name, v) = false) :
    (upsertSection name kvs d).filter f = d.filter f := by
  induction d with
  | nil => simp [upsertSection, List.filter, hf kvs]
  | cons s rest ih =>
      obtain ⟨n, old⟩ := s
      by_cases hn : n = name
      · subst hn
        simp [upsertSection, List.filter, hf kvs, hf old]
      · simp only [upsertSection, if_neg hn, List.filter_cons]
        rw [ih]

theorem profile_section_ne_default (p : String) :
    "profile " ++ p ≠ "default" := by
  intro h
  have hd := congrArg String.data h
  rw [String.data_append] at hd
  have h1 : ("profile " : String).data
      = 'p' :: ['r', 'o', 'f', 'i', 'l', 'e', ' '] := rfl
  have h2 : ("default" : String).data
      = 'd' :: ['e', 'f', 'a', 'u', 'l', 't'] := rfl
  rw [h1, h2, List.cons_append] at hd
  injection hd with hc _
  exact absurd hc (by decide)

/-- C4: upserting the default section and the named `profile {name}` section
replaces an existing section of the same name wholesale (its key set is
exactly the new one), creates no duplicate section, and performing the
update twice with the same profile name yields the same document as
performing it once. -/
theorem updateConfigFile_wholesale_idempotent
    (cfg : Settings) (p : String) (doc docB : ConfigDoc) (a r : String)
    (hp : parseProfileName p = .ok (a, r))
    (hd : updateConfigFile cfg p doc = .ok docB) :
    lookupSection "default" docB = some (profileKVs cfg a r) ∧
      lookupSection ("profile " ++ p) docB = some (profileKVs cfg a r) ∧
      ((doc.map Prod.fst).Nodup → (docB.map Prod.fst).Nodup) ∧
      updateConfigFile cfg p docB = .ok docB := by
  have hdef : updateConfigFile cfg p doc
      = .ok (upsertSection ("profile " ++ p) (profileKVs cfg a r)
              (upsertSection "default" (profileKVs cfg a r) doc)) := by
    simp [updateConfigFile, hp]
  rw [hdef] at hd
  have hB : docB = upsertSection ("profile " ++ p) (profileKVs cfg a r)
      (upsertSection "default" (profileKVs cfg a r) doc) :=
    (Except.ok.inj hd).symm
  subst hB
  have hne : ("default" : String) ≠ "profile " ++ p :=
    fun hc => profile_section_ne_default p hc.symm
  refine ⟨?_, ?_, ?_, ?_⟩
  · rw [lookupSection_upsert_other _ _ _ _ hne, lookupSection_upsert_self]
  · rw [lookupSection_upsert_self]
  · intro hnd
    exact nodup_upsertSection _ _ _ (nodup_upsertSection _ _ _ hnd)
  · simp only [updateConfigFile, hp]
    rw [upsertSection_of_lookup _ _ _
        (by rw [lookupSection_upsert_other _ _ _ _ hne.symm,
          lookupSection_upsert_self]),
      upsertSection_of_lookup _ _ _
        (by rw [lookupSection_upsert_other _ _ _ _ hne,
          lookupSection_upsert_self])]

/-- Witness for C4 at a concrete config, profile name and document. -/
theorem updateConfigFile_wholesale_idempotent_witness :
    parseProfileName "sso-1-Admin" = .ok ("1", "Admin") ∧
      updateConfigFile ⟨"https://e", "us", "us", "json"⟩ "sso-1-Admin"
          [("x", [("k", "v")])]
        = .ok [("x", [("k", "v")]),
               ("default", profileKVs ⟨"https://e", "us", "us", "json"⟩ "1" "Admin"),
               ("profile sso-1-Admin",
                 profileKVs ⟨"https://e", "us", "us", "json"⟩ "1" "Admin")] ∧
      updateConfigFile ⟨"https://e", "us", "us", "json"⟩ "sso-1-Admin"
          [("x", [("k", "v")]),
           ("default", profileKVs ⟨"https://e", "us", "us", "json"⟩ "1" "Admin"),
           ("profile sso-1-Admin",
             profileKVs ⟨"https://e", "us", "us", "json"⟩ "1" "Admin")]
        = .ok [("x", [("k", "v")]),
               ("default", profileKVs ⟨"https://e", "us", "us", "json"⟩ "1" "Admin"),
               ("profile sso-1-Admin",
                 profileKVs ⟨"https://e", "us", "us", "json"⟩ "1" "Admin")] := by
  refine ⟨rfl, rfl, ?_⟩
  exact (updateConfigFile_wholesale_idempotent
    ⟨"https://e", "us", "us", "json"⟩ "sso-1-Admin"
    [("x", [("k", "v")])] _ "1" "Admin" rfl rfl).2.2.2

/-- C8: the update touches only the `default` section and the
`profile {name}` section; every other section, with all its key/value
pairs and its relative order, is unchanged. -/
theorem updateConfigFile_frame
    (cfg : Settings) (p : String) (doc docB : ConfigDoc)
    (hd : updateConfigFile cfg p doc = .ok docB) :
    docB.filter
        (fun s => decide (s.1 ≠ "default" ∧ s.1 ≠ "profile " ++ p))
      = doc.filter
        (fun s => decide (s.1 ≠ "default" ∧ s.1 ≠ "profile " ++ p)) := by
  cases hp : parseProfileName p with
  | error e => simp [updateConfigFile, hp] at hd
  | ok pr =>
      obtain ⟨a, r⟩ := pr
      have hdef : updateConfigFile cfg p doc
          = .ok (upsertSection ("profile " ++ p) (profileKVs cfg a r)
                  (upsertSection "default" (profileKVs cfg a r) doc)) := by
        simp [updateConfigFile, hp]
      rw [hdef] at hd
      have hB := (Except.ok.inj hd).symm
      subst hB
      rw [filter_upsertSection _ _ _ _ (by intro v; simp),
        filter_upsertSection _ _ _ _ (by intro v; simp)]

/-- Witness for C8 at a concrete config, profile name and document. -/
theorem updateConfigFile_frame_witness :
    updateConfigFile ⟨"https://e", "us", "us", "json"⟩ "sso-1-Admin"
        [("x", [("k", "v")])]
      = .ok [("x", [("k", "v")]),
             ("default", profileKVs ⟨"https://e", "us", "us", "json"⟩ "1" "Admin"),
             ("profile sso-1-Admin",
               profileKVs ⟨"https://e", "us", "us", "json"⟩ "1" "Admin")] ∧
      [("x", [("k", "v")]),
       ("default", profileKVs ⟨"https://e", "us", "us", "json"⟩ "1" "Admin"),
       ("profile sso-1-Admin",
         profileKVs ⟨"https://e", "us", "us", "json"⟩ "1" "Admin")].filter
          (fun s => decide (s.1 ≠ "default" ∧ s.1 ≠ "profile " ++ "sso-1-Admin"))
        = [(("x" : String), [(("k" : String), ("v" : String))])].filter
          (fun s => decide (s.1 ≠ "default" ∧ s.1 ≠ "profile " ++ "sso-1-Admin")) := by
  refine ⟨rfl, ?_⟩
  exact updateConfigFile_frame ⟨"https://e", "us", "us", "json"⟩ "sso-1-Admin"
    [("x", [("k", "v")])] _ rfl

/-! Lemmas about the merge passes. -/

theorem countP_concat (pred : String → Bool) (acc : List String) (l : String) :
    List.countP pred (acc ++ [l])
      = List.countP pred acc + (if pred l then 1 else 0) := by
  simp [List.countP_append, List.countP_cons]

theorem count_concat (a : String) (acc : List String) (l : String) :
    List.count a (acc ++ [l])
      = List.count a acc + (if l = a then 1 else 0) := by
  simp [List.count_append, List.count_cons]

theorem isBlank_not_export (l : String) (h : isBlank l = true) :
    bashExportTest l = false := by
  have hs : pyStrip l = "" := by simpa [isBlank] using h
  have hdef : bashExportTest l
      = pyStartsWith "export AWS_DEFAULT_PROFILE=" (pyStrip l) := rfl
  rw [hdef, hs]
  decide

theorem bashGo_countP (p : String)
    (hc : bashExportTest (bashExport p) = true) (ls : List String) :
    ∀ (acc : List String) (added : Bool) (bc : Nat),
      List.countP bashExportTest acc ≤ (if added then 1 else 0) →
      List.countP bashExportTest (bashGo p ls acc added bc).1
        ≤ (if (bashGo p ls acc added bc).2 then 1 else 0) := by
  induction ls with
  | nil =>
      intro acc added bc h
      simpa [bashGo] using h
  | cons l ls ih =>
      intro acc added bc h
      by_cases hb : isBlank l
      · by_cases hbc : bc + 1 ≤ 1
        · simp only [bashGo, hb, if_true, hbc]
          apply ih
          rw [countP_concat, isBlank_not_export l hb]
          simpa using h
        · simp only [bashGo, hb, if_true, hbc, if_false]
          exact ih acc added (bc + 1) h
      · simp only [bashGo, hb, Bool.false_eq_true, if_false]
        by_cases he : bashExportTest l
        · cases added with
          | true =>
              simp only [he, if_true]
              exact ih acc true 0 h
          | false =>
              simp only [he, if_true, Bool.false_eq_true, if_false]
              apply ih
              rw [countP_concat, hc]
              simp only [Bool.false_eq_true, if_false] at h
              simpa using Nat.add_le_add h (le_rfl : (1 : Nat) ≤ 1)
        · have he2 : bashExportTest l = false := by simpa using he
          simp only [he2, Bool.false_eq_true, if_false]
          apply ih
          rw [countP_concat, he2]
          simpa using h

theorem bashGo_mem (p : String) (ls : List String) :
    ∀ (acc : List String) (added : Bool) (bc : Nat),
      (added = true → bashExport p ∈ acc) →
      ((bashGo p ls acc added bc).2 = true →
        bashExport p ∈ (bashGo p ls acc added bc).1) := by
  induction ls with
  | nil =>
      intro acc added bc h
      simpa [bashGo] using h
  | cons l ls ih =>
      intro acc added bc h
      by_cases hb : isBlank l
      · by_cases hbc : bc + 1 ≤ 1
        · simp only [bashGo, hb, if_true, hbc]
          exact ih _ _ _ (fun ha => List.mem_append_left _ (h ha))
        · simp only [bashGo, hb, if_true, hbc, if_false]
          exact ih _ _ _ h
      · simp only [bashGo, hb, Bool.false_eq_true, if_false]
        by_cases he : bashExportTest l
        · cases added with
          | true =>
              simp only [he, if_true]
              exact ih _ _ _ (fun _ => h rfl)
          | false =>
              simp only [he, if_true, Bool.false_eq_true, if_false]
              exact ih _ _ _ (fun _ => List.mem_append_right _ (by simp))
        · simp only [he, Bool.false_eq_true, if_false]
          exact ih _ _ _ (fun ha => List.mem_append_left _ (h ha))

theorem bashGo_nomatch (p : String) (ls : List String)
    (hl : ∀ l ∈ ls, bashExportTest l = false) :
    ∀ (acc : List String) (bc : Nat),
      (bashGo p ls acc false bc).2 = false := by
  induction ls with
  | nil => intro acc bc; simp [bashGo]
  | cons l ls ih =>
      intro acc bc
      have hll : bashExportTest l = false := hl l (by simp)
      have hrest : ∀ l2 ∈ ls, bashExportTest l2 = false :=
        fun l2 hm => hl l2 (by simp [hm])
      by_cases hb : isBlank l
      · by_cases hbc : bc + 1 ≤ 1
        · simp only [bashGo, hb, if_true, hbc]
          exact ih hrest _ _
        · simp only [bashGo, hb, if_true, hbc, if_false]
          exact ih hrest _ _
      · simp only [bashGo, hb, Bool.false_eq_true, if_false, hll]
        exact ih hrest _ _

theorem psGo_count (p : String)
    (hpe : isBlank (psEnv p) = false)
    (hin : pyIn psEnvNeedle (psEnv p) = true) (ls : List String) :
    ∀ (acc : List String) (e f : Bool) (bc : Nat),
      List.count (psEnv p) acc ≤ (if e then 1 else 0) →
      List.count (psEnv p) (psGo p ls acc e f bc).1
        ≤ (if (psGo p ls acc e f bc).2.1 then 1 else 0) := by
  induction ls with
  | nil =>
      intro acc e f bc h
      simpa [psGo] using h
  | cons l ls ih =>
      intro acc e f bc h
      by_cases hb : isBlank l
      · have hne : ¬(l = psEnv p) := fun hc => by
          rw [hc] at hb
          rw [hb] at hpe
          exact absurd hpe (by decide)
        by_cases hbc : bc + 1 ≤ 1
        · simp only [psGo, hb, if_true, hbc]
          apply ih
          rw [count_concat]
          simpa [hne] using h
        · simp only [psGo, hb, if_true, hbc, if_false]
          exact ih _ _ _ _ h
      · simp only [psGo, hb, Bool.false_eq_true, if_false]
        by_cases henv : pyIn psEnvNeedle l
        · cases e with
          | true =>
              simp only [henv, if_true]
              exact ih _ _ _ _ h
          | false =>
              simp only [henv, if_true, Bool.false_eq_true, if_false]
              apply ih
              rw [count_concat]
              simp only [Bool.false_eq_true, if_false] at h
              simpa using Nat.add_le_add h (le_rfl : (1 : Nat) ≤ 1)
        · have hne : ¬(l = psEnv p) := fun hc => by
            rw [hc] at henv; exact henv hin
          simp only [henv, Bool.false_eq_true, if_false]
          by_cases hf : pyIn psFuncNeedle l
          · simp only [hf, if_true]
            apply ih
            rw [count_concat]
            simpa [hne] using h
          · simp only [hf, Bool.false_eq_true, if_false]
            apply ih
            rw [count_concat]
            simpa [hne] using h

theorem psGo_mem (p : String) (ls : List String) :
    ∀ (acc : List String) (e f : Bool) (bc : Nat),
      (e = true → psEnv p ∈ acc) →
      ((psGo p ls acc e f bc).2.1 = true →
        psEnv p ∈ (psGo p ls acc e f bc).1) := by
  induction ls with
  | nil =>
      intro acc e f bc h
      simpa [psGo] using h
  | cons l ls ih =>
      intro acc e f bc h
      by_cases hb : isBlank l
      · by_cases hbc : bc + 1 ≤ 1
        · simp only [psGo, hb, if_true, hbc]
          exact ih _ _ _ _ (fun ha => List.mem_append_left _ (h ha))
        · simp only [psGo, hb, if_true, hbc, if_false]
          exact ih _ _ _ _ h
      · simp only [psGo, hb, Bool.false_eq_true, if_false]
        by_cases henv : pyIn psEnvNeedle l
        · cases e with
          | true =>
              simp only [henv, if_true]
              exact ih _ _ _ _ (fun _ => h rfl)
          | false =>
              simp only [henv, if_true, Bool.false_eq_true, if_false]
              exact ih _ _ _ _ (fun _ => List.mem_append_right _ (by simp))
        · simp only [henv, Bool.false_eq_true, if_false]
          by_cases hf : pyIn psFuncNeedle l
          · simp only [hf, if_true]
            exact ih _ _ _ _ (fun ha => List.mem_append_left _ (h ha))
          · simp only [hf, Bool.false_eq_true, if_false]
            exact ih _ _ _ _ (fun ha => List.mem_append_left _ (h ha))

theorem psGo_nomatch (p : String) (ls : List String)
    (hl : ∀ l ∈ ls, pyIn psEnvNeedle l = false ∧ pyIn psFuncNeedle l = false) :
    ∀ (acc : List String) (bc : Nat),
      (psGo p ls acc false false bc).2 = (false, false) := by
  induction ls with
  | nil => intro acc bc; simp [psGo]
  | cons l ls ih =>
      intro acc bc
      have hll := hl l (by simp)
      have hrest : ∀ l2 ∈ ls,
          pyIn psEnvNeedle l2 = false ∧ pyIn psFuncNeedle l2 = false :=
        fun l2 hm => hl l2 (by simp [hm])
      by_cases hb : isBlank l
      · by_cases hbc : bc + 1 ≤ 1
        · simp only [psGo, hb, if_true, hbc]
          exact ih hrest _ _
        · simp only [psGo, hb, if_true, hbc, if_false]
          exact ih hrest _ _
      · simp only [psGo, hb, Bool.false_eq_true, if_false, hll.1, hll.2]
        exact ih hrest _ _

theorem countP_export_sepIfNeeded (acc : List String) :
    List.countP bashExportTest (sepIfNeeded acc) = 0 := by
  unfold sepIfNeeded
  by_cases h : needsSep acc
  · simp [h, show bashExportTest "" = false from by decide]
  · simp [h]

theorem count_psEnv_sepIfNeeded (acc : List String) :
    List.count (psEnv "default") (sepIfNeeded acc) = 0 := by
  unfold sepIfNeeded
  by_cases h : needsSep acc
  · simp only [h, if_true]
    decide
  · simp [h]

theorem bashExport_mem_bashWithExport (p : String) (lines : List String) :
    bashExport p ∈ bashWithExport p lines := by
  have h0 := bashGo_mem p lines [] false 0 (fun h => Bool.noConfusion h)
  unfold bashWithExport bashPass
  set P := bashGo p lines [] false 0 with hPdef
  obtain ⟨acc, added⟩ := P
  cases added with
  | true =>
      have hmem : bashExport p ∈ acc := by simpa using h0 rfl
      simpa using hmem
  | false => simp

theorem bashExport_mem_bashMerge (p : String) (lines : List String) :
    bashExport p ∈ bashMerge p lines := by
  by_cases hin : pyIn bashAlias (joinLines (bashWithExport p lines))
  · simpa [bashMerge, hin] using bashExport_mem_bashWithExport p lines
  · simp only [bashMerge, hin, Bool.false_eq_true, if_false]
    exact List.mem_append_left _ (bashExport_mem_bashWithExport p lines)

theorem psEnv_mem_psMerge (p : String) (lines : List String) :
    psEnv p ∈ psMerge p lines := by
  have h0 := psGo_mem p lines [] false false 0 (fun h => Bool.noConfusion h)
  unfold psMerge psWithEnv psPass
  set P := psGo p lines [] false false 0 with hPdef
  obtain ⟨acc, e, f⟩ := P
  cases e with
  | true =>
      have hmem : psEnv p ∈ acc := by simpa using h0 rfl
      cases f with
      | true => simpa using hmem
      | false =>
          simp only [if_true, Bool.false_eq_true, if_false]
          exact List.mem_append_left _ (List.mem_append_left _ hmem)
  | false =>
      have hmem : psEnv p ∈ acc ++ sepIfNeeded acc ++ [psEnv p] := by simp
      cases f with
      | true => simp
      | false =>
          simp only [Bool.false_eq_true, if_false]
          exact List.mem_append_left _ (List.mem_append_left _ hmem)

theorem lookupReg_setRegValue (k v : String) (r : List (String × String)) :
    lookupReg k (setRegValue k v r) = some v := by
  induction r with
  | nil => simp [setRegValue, lookupReg]
  | cons kv rest ih =>
      obtain ⟨k0, v0⟩ := kv
      by_cases hk : k0 = k
      · simp [setRegValue, lookupReg, hk]
      · simp [setRegValue, lookupReg, hk, ih]

/-- C1 is violated by the code: the PowerShell adapter's merge is not
idempotent.  On an empty profile the first application emits the assignment
line and the Clear-AWS block; on the second application the substring
predicate `"$env:AWS_DEFAULT_PROFILE" in line` also matches the line inside
the freshly emitted block, and since the assignment directive was already
emitted that line is dropped as a duplicate — the helper block loses its
profile-reset line, so the second output differs from the first. -/
theorem psMerge_not_idempotent :
    psMerge "default" (psMerge "default" []) ≠ psMerge "default" [] := by
  decide

/-- C3 amended: after one merge pass the output contains at most one
occurrence of the environment-assignment directive — for bash at most one
line whose stripped form starts with `export AWS_DEFAULT_PROFILE=`, for
PowerShell at most one line equal to the canonical assignment.  The helper
alias/function block, by contrast, is only appended when absent:
pre-existing duplicate occurrences of it survive the pass (see the
counterexample). -/
theorem merge_env_directive_at_most_once (bashInput psInput : List String) :
    List.countP bashExportTest (bashMerge "default" bashInput) ≤ 1 ∧
      List.count (psEnv "default") (psMerge "default" psInput) ≤ 1 := by
  constructor
  · have h0 := bashGo_countP "default" (by decide) bashInput [] false 0 (by simp)
    have halias : bashExportTest bashAlias = false := by decide
    have hexp1 : List.countP bashExportTest [bashExport "default"] = 1 := by
      decide
    unfold bashMerge bashWithExport bashPass
    set P := bashGo "default" bashInput [] false 0 with hPdef
    obtain ⟨acc, added⟩ := P
    cases added with
    | true =>
        replace h0 : List.countP bashExportTest acc
            ≤ if true = true then 1 else 0 := h0
        have hacc : List.countP bashExportTest acc ≤ 1 := by simpa using h0
        show List.countP bashExportTest
            (if pyIn bashAlias (joinLines acc) = true then acc
             else acc ++ [bashAlias]) ≤ 1
        by_cases hin : pyIn bashAlias (joinLines acc)
        · simpa [hin] using hacc
        · simp only [hin, Bool.false_eq_true, if_false]
          rw [countP_concat, halias]
          simp only [Bool.false_eq_true, if_false, Nat.add_zero]
          exact hacc
    | false =>
        replace h0 : List.countP bashExportTest acc
            ≤ if false = true then 1 else 0 := h0
        have hacc : List.countP bashExportTest acc = 0 := by
          simpa using h0
        have hcore : List.countP bashExportTest
            (acc ++ sepIfNeeded acc ++ [bashExport "default"]) = 1 := by
          rw [List.countP_append, List.countP_append, hacc,
            countP_export_sepIfNeeded, hexp1]
        show List.countP bashExportTest
            (if pyIn bashAlias
                (joinLines (acc ++ sepIfNeeded acc ++ [bashExport "default"]))
                = true
             then acc ++ sepIfNeeded acc ++ [bashExport "default"]
             else (acc ++ sepIfNeeded acc ++ [bashExport "default"])
               ++ [bashAlias]) ≤ 1
        by_cases hin : pyIn bashAlias
            (joinLines (acc ++ sepIfNeeded acc ++ [bashExport "default"]))
        · simp only [hin, if_true]
          omega
        · simp only [hin, Bool.false_eq_true, if_false]
          rw [countP_concat, halias]
          simp only [Bool.false_eq_true, if_false, Nat.add_zero]
          omega
  · have h0 := psGo_count "default" (by decide) (by decide) psInput [] false
      false 0 (by simp)
    have henv1 : List.count (psEnv "default") [psEnv "default"] = 1 := by
      decide
    have hblock : List.count (psEnv "default") psBlock = 0 := by decide
    unfold psMerge psWithEnv psPass
    set P := psGo "default" psInput [] false false 0 with hPdef
    obtain ⟨acc, e, f⟩ := P
    cases e with
    | true =>
        replace h0 : List.count (psEnv "default") acc
            ≤ if true = true then 1 else 0 := h0
        have hacc : List.count (psEnv "default") acc ≤ 1 := by simpa using h0
        cases f with
        | true =>
            show List.count (psEnv "default") acc ≤ 1
            exact hacc
        | false =>
            show List.count (psEnv "default")
                (acc ++ sepIfNeeded acc ++ psBlock) ≤ 1
            rw [List.count_append, List.count_append, count_psEnv_sepIfNeeded,
              hblock]
            omega
    | false =>
        replace h0 : List.count (psEnv "default") acc
            ≤ if false = true then 1 else 0 := h0
        have hacc : List.count (psEnv "default") acc = 0 := by simpa using h0
        have hcore : List.count (psEnv "default")
            (acc ++ sepIfNeeded acc ++ [psEnv "default"]) = 1 := by
          rw [List.count_append, List.count_append, hacc,
            count_psEnv_sepIfNeeded, henv1]
        cases f with
        | true =>
            show List.count (psEnv "default")
                (acc ++ sepIfNeeded acc ++ [psEnv "default"]) ≤ 1
            exact hcore.le
        | false =>
            show List.count (psEnv "default")
                ((acc ++ sepIfNeeded acc ++ [psEnv "default"])
                  ++ sepIfNeeded (acc ++ sepIfNeeded acc ++ [psEnv "default"])
                  ++ psBlock) ≤ 1
            rw [List.count_append, List.count_append, count_psEnv_sepIfNeeded,
              hblock]
            omega

/-- C3 counterexample: a bashrc that already contains the helper alias twice
still contains it twice after one merge pass; the claim's "at most one
occurrence of the helper alias/function block survives" is false. -/
theorem bash_alias_duplicates_survive :
    ¬ (List.count bashAlias (bashMerge "default" [bashAlias, bashAlias]) ≤ 1) := by
  decide

/-- C7 amended, stated per directive: a directive not matched by any
existing line during the merge pass (equivalently: whose emitted flag is
still false after the pass — the bash export flag, the PowerShell
assignment flag, the PowerShell function flag — or, for the bash alias, the
substring containment check failing) is appended at the end; behind exactly
one blank separator (when the output so far is non-empty and does not
already end in a blank line, the `sepIfNeeded` guard) for the bash export
directive and for both PowerShell directives, in every combination of the
other directive being matched or not; the bash helper alias alone is
appended directly, with no preceding blank separator (see the
counterexample). -/
theorem merge_appends_with_separator (bashInput psInput : List String) :
    ((bashPass "default" bashInput).2 = false →
        bashWithExport "default" bashInput
          = (bashPass "default" bashInput).1
            ++ sepIfNeeded (bashPass "default" bashInput).1
            ++ [bashExport "default"]) ∧
      (pyIn bashAlias (joinLines (bashWithExport "default" bashInput)) = false →
        bashMerge "default" bashInput
          = bashWithExport "default" bashInput ++ [bashAlias]) ∧
      ((psPass "default" psInput).2.1 = false →
        psWithEnv "default" psInput
          = (psPass "default" psInput).1
            ++ sepIfNeeded (psPass "default" psInput).1
            ++ [psEnv "default"]) ∧
      ((psPass "default" psInput).2.2 = false →
        psMerge "default" psInput
          = psWithEnv "default" psInput
            ++ sepIfNeeded (psWithEnv "default" psInput)
            ++ psBlock) := by
  refine ⟨?_, ?_, ?_, ?_⟩
  · intro h
    unfold bashWithExport
    unfold bashPass at h ⊢
    set P := bashGo "default" bashInput [] false 0 with hPdef
    obtain ⟨acc, added⟩ := P
    simp only at h
    subst h
    simp
  · intro h
    unfold bashMerge
    simp only [h, Bool.false_eq_true, if_false]
  · intro h
    unfold psWithEnv
    unfold psPass at h ⊢
    set P := psGo "default" psInput [] false false 0 with hPdef
    obtain ⟨acc, e, f⟩ := P
    simp only at h
    subst h
    simp
  · intro h
    unfold psMerge
    simp only [h, Bool.false_eq_true, if_false]

/-- Witness for the amended C7, exercising each conjunct: the bash file
`["x"]` (export and alias both unmatched), a PowerShell file containing only
a Clear-AWS block (function matched, assignment unmatched), and a
PowerShell file containing only an assignment line (assignment matched,
function unmatched). -/
theorem merge_appends_with_separator_witness :
    ((bashPass "default" ["x"]).2 = false) ∧
      (pyIn bashAlias (joinLines (bashWithExport "default" ["x"])) = false) ∧
      ((psPass "default" ["function Clear-AWS \x7b", "\x7d"]).2.1 = false) ∧
      ((psPass "default" ["$env:AWS_DEFAULT_PROFILE = \x27x\x27"]).2.2
        = false) ∧
      bashWithExport "default" ["x"]
        = (bashPass "default" ["x"]).1
          ++ sepIfNeeded (bashPass "default" ["x"]).1
          ++ [bashExport "default"] ∧
      bashMerge "default" ["x"]
        = bashWithExport "default" ["x"] ++ [bashAlias] ∧
      psWithEnv "default" ["function Clear-AWS \x7b", "\x7d"]
        = (psPass "default" ["function Clear-AWS \x7b", "\x7d"]).1
          ++ sepIfNeeded (psPass "default" ["function Clear-AWS \x7b", "\x7d"]).1
          ++ [psEnv "default"] ∧
      psMerge "default" ["$env:AWS_DEFAULT_PROFILE = \x27x\x27"]
        = psWithEnv "default" ["$env:AWS_DEFAULT_PROFILE = \x27x\x27"]
          ++ sepIfNeeded (psWithEnv "default" ["$env:AWS_DEFAULT_PROFILE = \x27x\x27"])
          ++ psBlock :=
  ⟨by decide, by decide, by decide, by decide,
    (merge_appends_with_separator ["x"] ["x"]).1 (by decide),
    (merge_appends_with_separator ["x"] ["x"]).2.1 (by decide),
    (merge_appends_with_separator ["x"]
      ["function Clear-AWS \x7b", "\x7d"]).2.2.1 (by decide),
    (merge_appends_with_separator ["x"]
      ["$env:AWS_DEFAULT_PROFILE = \x27x\x27"]).2.2.2 (by decide)⟩

/-- C7 counterexample: on the bashrc `["x"]` neither directive matches; the
export line is appended behind one blank separator, but the helper alias is
then appended immediately after the (non-blank) export line with no
preceding blank separator, contradicting the claim for that directive. -/
theorem bash_alias_appended_without_separator :
    bashMerge "default" ["x"]
      = ["x", "", bashExport "default", bashAlias] ∧
      isBlank (bashExport "default") = false := by
  exact ⟨by decide, by decide⟩

/-- C9: `setup_profiles` returns exactly one canonical profile name per
input pair, in input order, regardless of whether the per-pair profile
update succeeds — the name is appended before the write is attempted and a
raised exception is caught and only logged. -/
theorem setupProfiles_names
    (upd : String → ConfigDoc → Except PyErr ConfigDoc)
    (roles : List (String × String)) (doc : ConfigDoc) :
    (setupProfiles upd roles doc).1
      = roles.map (fun ar => profileNameFor ar.1 ar.2) := by
  induction roles generalizing doc with
  | nil => rfl
  | cons ar rest ih =>
      obtain ⟨a, r⟩ := ar
      simp [setupProfiles, ih]

/-- C10: with a non-empty produced-name list every shell adapter writes the
constant profile value `"default"` — the bashrc gains the export line for
`default`, the PowerShell profile the assignment for `default`, and the
registry key `AWS_DEFAULT_PROFILE` the value `default` — independently of
the produced names; with an empty list nothing is modified. -/
theorem setupGlobalProfile_default (names : List String) (env : ShellEnv) :
    (names = [] → setupGlobalProfile names env = env) ∧
      (names ≠ [] →
        (∀ names2, names2 ≠ [] →
          setupGlobalProfile names2 env = setupGlobalProfile names env) ∧
          bashExport "default" ∈ (setupGlobalProfile names env).bashrc ∧
          psEnv "default" ∈ (setupGlobalProfile names env).psProfile ∧
          lookupReg "AWS_DEFAULT_PROFILE"
              (setupGlobalProfile names env).registry = some "default") := by
  refine ⟨fun h => by simp [setupGlobalProfile, h], fun h => ⟨?_, ?_, ?_, ?_⟩⟩
  · intro names2 h2
    simp [setupGlobalProfile, h, h2]
  · simp only [setupGlobalProfile, h, if_false]
    exact bashExport_mem_bashMerge "default" env.bashrc
  · simp only [setupGlobalProfile, h, if_false]
    exact psEnv_mem_psMerge "default" env.psProfile
  · simp only [setupGlobalProfile, h, if_false]
    exact lookupReg_setRegValue _ _ env.registry

/-- Witness for C10 at a concrete non-empty name list and empty shell
state. -/
theorem setupGlobalProfile_default_witness :
    ((["sso-1-A"] : List String) ≠ []) ∧
      bashExport "default"
        ∈ (setupGlobalProfile ["sso-1-A"] ⟨[], [], []⟩).bashrc ∧
      psEnv "default"
        ∈ (setupGlobalProfile ["sso-1-A"] ⟨[], [], []⟩).psProfile ∧
      lookupReg "AWS_DEFAULT_PROFILE"
          (setupGlobalProfile ["sso-1-A"] ⟨[], [], []⟩).registry
        = some "default" :=
  ⟨by decide,
    ((setupGlobalProfile_default ["sso-1-A"] ⟨[], [], []⟩).2 (by decide)).2.1,
    ((setupGlobalProfile_default ["sso-1-A"] ⟨[], [], []⟩).2 (by decide)).2.2.1,
    ((setupGlobalProfile_default ["sso-1-A"] ⟨[], [], []⟩).2 (by decide)).2.2.2⟩

end SsoHelper
